import Mathlib

/-!
Formal model of the water-quality CSV processing pipeline from
`src/routes/api/process-csv/+server.ts`.

The pipeline receives the list of header-normalized CSV records (as produced
by `neat-csv` with lower-cased, trimmed headers), validates the required
columns on the first record, selects the rows whose characteristic is
`"temperature, water"` and whose value parses (via JS `parseFloat`) to a
non-NaN number, groups them by trimmed location id and returns the
`Math.round(avg * 100) / 100` average per location.

Numbers are modelled exactly: a JS number is a rational (`ℚ`), positive or
negative infinity, or NaN (`JSNum`).  IEEE-754 representation error is not
modelled; every arithmetic step of the source is mirrored exactly over `ℚ`.
JS `-0` is identified with `0`.  String operations (`trim`, `toLowerCase`,
`endsWith`) are modelled over `List Char` with the ASCII behaviour the
pipeline relies on.
-/

namespace WaterQuality

/-- Whitespace recognised by JS `String.prototype.trim` (ASCII part). -/
def jsIsWS (c : Char) : Bool :=
  c = ' ' || c = '\t' || c = '\n' || c = '\r' || c = '\x0b' || c = '\x0c'

/-- Left trim: drop leading whitespace. -/
def ltrim (l : List Char) : List Char := l.dropWhile jsIsWS

/-- Right trim: drop trailing whitespace. -/
def rtrim (l : List Char) : List Char := (l.reverse.dropWhile jsIsWS).reverse

/-- JS `s.trim()` on the character list. -/
def jsTrimList (l : List Char) : List Char := rtrim (ltrim l)

/-- JS `s.trim()`. -/
def jsTrim (s : String) : String := ⟨jsTrimList s.data⟩

/-- The upper/lower case pairs of ASCII letters. -/
def lowerPairs : List (Char × Char) :=
  [('A', 'a'), ('B', 'b'), ('C', 'c'), ('D', 'd'), ('E', 'e'), ('F', 'f'),
   ('G', 'g'), ('H', 'h'), ('I', 'i'), ('J', 'j'), ('K', 'k'), ('L', 'l'),
   ('M', 'm'), ('N', 'n'), ('O', 'o'), ('P', 'p'), ('Q', 'q'), ('R', 'r'),
   ('S', 's'), ('T', 't'), ('U', 'u'), ('V', 'v'), ('W', 'w'), ('X', 'x'),
   ('Y', 'y'), ('Z', 'z')]

/-- JS `c.toLowerCase()` for a single character (ASCII letters). -/
def jsCharLower (c : Char) : Char :=
  match lowerPairs.find? (fun p => p.1 == c) with
  | some p => p.2
  | none => c

/-- JS `s.toLowerCase()`. -/
def jsToLower (s : String) : String := ⟨s.data.map jsCharLower⟩

/-- JS `s.endsWith(t)`. -/
def jsEndsWith (s t : String) : Bool := t.data.isSuffixOf s.data

/-- A JS number: exact rational, an infinity, or NaN (`-0` identified with `0`). -/
inductive JSNum where
  | fin (q : ℚ)
  | posInf
  | negInf
  | nan
deriving DecidableEq

/-- JS `isNaN` on a number. -/
def JSNum.isNaN : JSNum → Bool
  | .nan => true
  | _ => false

/-- Numeric value of a digit string (most significant first). -/
def digitsToNat (l : List Char) : ℕ :=
  l.foldl (fun a c => 10 * a + (c.toNat - '0'.toNat)) 0

/-- Exponent digits after `e`/`e+`/`e-`: value of the leading digit run
(0 when there are none, which matches `parseFloat` abandoning an
incomplete exponent since `m * 10^0 = m`). -/
def expVal (l : List Char) : ℤ :=
  (digitsToNat (l.takeWhile Char.isDigit) : ℤ)

/-- Exponent after the `e`/`E` marker: optional sign then digits. -/
def parseExpAfterE : List Char → ℤ
  | '+' :: r => expVal r
  | '-' :: r => -(expVal r)
  | r => expVal r

/-- Optional exponent part of a `parseFloat` literal. -/
def parseExp : List Char → ℤ
  | 'e' :: r => parseExpAfterE r
  | 'E' :: r => parseExpAfterE r
  | _ => 0

/-- Longest unsigned decimal-mantissa prefix: digits, optionally a dot and
more digits (at least one digit overall); returns its value and the
remaining characters, or `none` when no numeral starts the list. -/
def parseMantissa (l : List Char) : Option (ℚ × List Char) :=
  let ip := l.takeWhile Char.isDigit
  let r1 := l.dropWhile Char.isDigit
  match r1 with
  | '.' :: r2 =>
      let fp := r2.takeWhile Char.isDigit
      if ip.isEmpty && fp.isEmpty then none
      else some ((digitsToNat ip : ℚ) + (digitsToNat fp : ℚ) / (10 : ℚ) ^ fp.length,
                 r2.dropWhile Char.isDigit)
  | _ => if ip.isEmpty then none else some ((digitsToNat ip : ℚ), r1)

/-- Result of parsing the unsigned part of a `parseFloat` literal. -/
inductive PFRes where
  | val (q : ℚ)
  | inf
  | nan
deriving DecidableEq

/-- Unsigned part of JS `parseFloat`: the literal `Infinity`, or a decimal
mantissa with an optional exponent; trailing garbage is ignored. -/
def parseUnsignedJS (l : List Char) : PFRes :=
  if ['I', 'n', 'f', 'i', 'n', 'i', 't', 'y'].isPrefixOf l then .inf
  else
    match parseMantissa l with
    | none => .nan
    | some (m, rest) => .val (m * (10 : ℚ) ^ parseExp rest)

/-- JS `parseFloat`: skip leading whitespace, optional sign, then the longest
valid numeric prefix; `NaN` when no numeric prefix exists. -/
def parseFloat (s : String) : JSNum :=
  match s.data.dropWhile jsIsWS with
  | '+' :: rest =>
      (match parseUnsignedJS rest with
       | .val q => .fin q
       | .inf => .posInf
       | .nan => .nan)
  | '-' :: rest =>
      (match parseUnsignedJS rest with
       | .val q => .fin (-q)
       | .inf => .negInf
       | .nan => .nan)
  | l =>
      (match parseUnsignedJS l with
       | .val q => .fin q
       | .inf => .posInf
       | .nan => .nan)

/-- JS `+` on numbers. -/
def jsAdd : JSNum → JSNum → JSNum
  | .nan, _ => .nan
  | _, .nan => .nan
  | .fin a, .fin b => .fin (a + b)
  | .posInf, .negInf => .nan
  | .negInf, .posInf => .nan
  | .posInf, _ => .posInf
  | _, .posInf => .posInf
  | .negInf, _ => .negInf
  | _, .negInf => .negInf

/-- JS `*` on numbers. -/
def jsMul : JSNum → JSNum → JSNum
  | .nan, _ => .nan
  | _, .nan => .nan
  | .fin a, .fin b => .fin (a * b)
  | .posInf, .posInf => .posInf
  | .negInf, .negInf => .posInf
  | .posInf, .negInf => .negInf
  | .negInf, .posInf => .negInf
  | .posInf, .fin b => if b = 0 then .nan else if 0 < b then .posInf else .negInf
  | .fin a, .posInf => if a = 0 then .nan else if 0 < a then .posInf else .negInf
  | .negInf, .fin b => if b = 0 then .nan else if 0 < b then .negInf else .posInf
  | .fin a, .negInf => if a = 0 then .nan else if 0 < a then .negInf else .posInf

/-- JS `/` on numbers (`x / ±0` signs collapse since `-0` is identified with `0`). -/
def jsDiv : JSNum → JSNum → JSNum
  | .nan, _ => .nan
  | _, .nan => .nan
  | .fin a, .fin b =>
      if b = 0 then (if a = 0 then .nan else if 0 < a then .posInf else .negInf)
      else .fin (a / b)
  | .posInf, .fin b => if b < 0 then .negInf else .posInf
  | .negInf, .fin b => if b < 0 then .posInf else .negInf
  | .fin _, .posInf => .fin 0
  | .fin _, .negInf => .fin 0
  | .posInf, .posInf => .nan
  | .posInf, .negInf => .nan
  | .negInf, .posInf => .nan
  | .negInf, .negInf => .nan

/-- JS `Math.round`: nearest integer, ties toward positive infinity,
i.e. `⌊x + 1/2⌋` on finite values. -/
def jsMathRound : JSNum → JSNum
  | .fin q => .fin ((Rat.floor (q + 1 / 2) : ℤ) : ℚ)
  | x => x

/-- A record produced by `neat-csv` with normalized headers, restricted to the
three columns the pipeline reads (extra columns are ignored by the source).
`none` models an absent key (`undefined` in JS). -/
structure RawRow where
  monitoringlocationid : Option String
  characteristicname : Option String
  resultvalue : Option String
deriving DecidableEq

/-- The intermediate object built by the first `.map` of the source:
each field optionally trimmed (`row.x?.trim()`). -/
structure TrimmedRow where
  locationId : Option String
  characteristic : Option String
  valueStr : Option String
deriving DecidableEq

/-- JS truthiness of a possibly-absent string: `undefined` and `""` are falsy. -/
def truthy : Option String → Bool
  | none => false
  | some s => decide (s ≠ "")

/-- `isTemperatureData` from the source:
`characteristic.toLowerCase().trim() === 'temperature, water'`. -/
def isTemperatureData (c : String) : Bool :=
  decide (jsTrim (jsToLower c) = "temperature, water")

/-- The first `.map` of the source: trim each field under optional chaining. -/
def trimRow (r : RawRow) : TrimmedRow :=
  ⟨r.monitoringlocationid.map jsTrim, r.characteristicname.map jsTrim,
   r.resultvalue.map jsTrim⟩

/-- The first `.filter` of the source: all three fields truthy and the
characteristic matches the target (short-circuit `&&`). -/
def keepRow (t : TrimmedRow) : Bool :=
  truthy t.locationId && truthy t.characteristic && truthy t.valueStr &&
    t.characteristic.any isTemperatureData

/-- The `temperatureRows` chain of the source:
`rows.map(trim).filter(keep).map(parse).filter(v => !isNaN(v))`.
The `.getD ""` reflects the source's non-null assertions (`row.locationId!`),
which the preceding filter makes safe. -/
def temperatureRows (rows : List RawRow) : List (String × JSNum) :=
  (((rows.map trimRow).filter keepRow).map
      (fun t => (t.locationId.getD "", parseFloat (t.valueStr.getD "")))).filter
    (fun p => !p.2.isNaN)

/-- One-row summary of the whole `temperatureRows` chain: the observation a
single record contributes, if any. -/
def codeSelect (r : RawRow) : Option (String × JSNum) :=
  if keepRow (trimRow r) && !(parseFloat ((trimRow r).valueStr.getD "")).isNaN then
    some ((trimRow r).locationId.getD "", parseFloat ((trimRow r).valueStr.getD ""))
  else none

/-- Errors raised by `processWaterQualityCSV` and the final `POST` check;
each constructor corresponds to one `ERROR_MESSAGES` entry.
`missingColumns` carries the enumerated missing column names that the source
joins into the message string. -/
inductive PipelineError where
  | insufficientData
  | missingColumns (cols : List String)
  | noTemperatureData
  | noValidData
deriving DecidableEq

/-- `VALIDATION_RULES.REQUIRED_COLUMNS`. -/
def REQUIRED_COLUMNS : List String :=
  ["monitoringlocationid", "characteristicname", "resultvalue"]

/-- Dynamic key lookup `firstRow[col]` restricted to the three known columns. -/
def getCol (r : RawRow) (c : String) : Option String :=
  if c = "monitoringlocationid" then r.monitoringlocationid
  else if c = "characteristicname" then r.characteristicname
  else if c = "resultvalue" then r.resultvalue
  else none

/-- `REQUIRED_COLUMNS.filter(col => !firstRow[col])` from the source:
a column counts as missing when its value in the first record is falsy
(absent key or empty string). -/
def missingColumnsOf (r : RawRow) : List String :=
  REQUIRED_COLUMNS.filter (fun c => !truthy (getCol r c))

/-- Key accumulation of the grouping `reduce`: a location id becomes a new
key of the record the first time it is seen. -/
def addKey (acc : List String) (k : String) : List String :=
  if k ∈ acc then acc else acc ++ [k]

/-- The keys of `groupedData`, in insertion order. -/
def keysOf (trs : List (String × JSNum)) : List String :=
  (trs.map Prod.fst).foldl addKey []

/-- The value list `groupedData[k]`: the retained values pushed for key `k`,
in row order. -/
def valuesFor (trs : List (String × JSNum)) (k : String) : List JSNum :=
  trs.filterMap (fun p => if p.1 = k then some p.2 else none)

/-- `values.reduce((sum, val) => sum + val, 0)`. -/
def jsSum (l : List JSNum) : JSNum := l.foldl jsAdd (.fin 0)

/-- `sum / values.length`. -/
def jsAvg (l : List JSNum) : JSNum := jsDiv (jsSum l) (.fin (l.length : ℚ))

/-- `Math.round(average * Math.pow(10, 2)) / Math.pow(10, 2)`. -/
def roundTo2 (x : JSNum) : JSNum :=
  jsDiv (jsMathRound (jsMul x (.fin 100))) (.fin 100)

/-- The grouping and averaging `reduce`s of the source: one entry per
location, carrying the rounded average of its values. -/
def aggregate (trs : List (String × JSNum)) : List (String × JSNum) :=
  (keysOf trs).map (fun k => (k, roundTo2 (jsAvg (valuesFor trs k))))

/-- Reading a key of the result object. -/
def lookupKey : List (String × JSNum) → String → Option JSNum
  | [], _ => none
  | (k', v) :: t, k => if k' = k then some v else lookupKey t k

/-- `processWaterQualityCSV` after CSV parsing: empty-row check, first-record
column check, row selection, non-empty check, aggregation. -/
def processRows (rows : List RawRow) : Except PipelineError (List (String × JSNum)) :=
  match rows with
  | [] => .error .insufficientData
  | first :: rest =>
      if 0 < (missingColumnsOf first).length then
        .error (.missingColumns (missingColumnsOf first))
      else if (temperatureRows (first :: rest)).length = 0 then
        .error .noTemperatureData
      else
        .ok (aggregate (temperatureRows (first :: rest)))

/-- The `POST` handler's processing tail: run the pipeline, then the defensive
`Object.keys(results).length === 0` check. -/
def POSTprocess (rows : List RawRow) : Except PipelineError (List (String × JSNum)) :=
  match processRows rows with
  | .ok m => if m.length = 0 then .error .noValidData else .ok m
  | .error e => .error e

/-- The advisory file metadata consumed by `validateFileBasics`. -/
structure FileMeta where
  name : String
  size : ℕ
deriving DecidableEq

/-- The three failure cases of `validateFileBasics`. -/
inductive FileError where
  | invalidFileType
  | fileTooLarge
  | emptyFile
deriving DecidableEq

/-- `VALIDATION_RULES.MAX_FILE_SIZE = 10 * 1024 * 1024`. -/
def MAX_FILE_SIZE : ℕ := 10 * 1024 * 1024

/-- `validateFileBasics`: extension check, then size check, then emptiness
check; `none` means valid. -/
def validateFileBasics (f : FileMeta) (content : String) : Option FileError :=
  if !jsEndsWith (jsToLower f.name) ".csv" then some .invalidFileType
  else if MAX_FILE_SIZE < f.size then some .fileTooLarge
  else if jsTrim content = "" then some .emptyFile
  else none

/-- Spec-worded selection (transcribed from the specification, not the code):
the value a row contributes to output key `k` — its trimmed, case-folded
characteristic equals `"temperature, water"`, its trimmed value string parses
to a non-NaN number, and its trimmed location id equals `k`. -/
def specRowValue (r : RawRow) (k : String) : Option JSNum :=
  match r.monitoringlocationid, r.characteristicname, r.resultvalue with
  | some loc, some c, some v =>
      if jsToLower (jsTrim c) = "temperature, water" ∧
          (parseFloat (jsTrim v)).isNaN = false ∧ jsTrim loc = k then
        some (parseFloat (jsTrim v))
      else none
  | _, _, _ => none

/-- Spec-worded value list of output key `k`. -/
def specValues (rows : List RawRow) (k : String) : List JSNum :=
  rows.filterMap (fun r => specRowValue r k)

/-- Inserting a row at position `n` of the record list (appends when `n`
exceeds the length); used to state that adding invalid rows is harmless. -/
def insertAt : ℕ → RawRow → List RawRow → List RawRow
  | 0, b, l => b :: l
  | _ + 1, b, [] => [b]
  | n + 1, b, a :: l => a :: insertAt n b l

/-- Two-decimal rounding with round-half-toward-positive-infinity,
transcribed from the amended rounding-policy wording
(`round(avg * 10^2) / 10^2` with `round x = ⌊x + 1/2⌋`). -/
def roundHalfUpTwo (q : ℚ) : ℚ := ((Rat.floor (q * 100 + 1 / 2) : ℤ) : ℚ) / 100

/-- Two-decimal rounding with round-half-away-from-zero, transcribed from the
specification's claimed rounding policy. -/
def roundHalfAwayTwo (q : ℚ) : ℚ :=
  (if q * 100 < 0 then -((Rat.floor (-(q * 100) + 1 / 2) : ℤ) : ℚ)
   else ((Rat.floor (q * 100 + 1 / 2) : ℤ) : ℚ)) / 100

/-! ### Basic facts about the string model -/

lemma jsIsWS_jsCharLower (c : Char) : jsIsWS (jsCharLower c) = jsIsWS c := by
  unfold jsCharLower
  cases hf : lowerPairs.find? (fun p => p.1 == c) with
  | none => rfl
  | some p =>
      have hmem : p ∈ lowerPairs := List.mem_of_find?_eq_some hf
      have hpc : p.1 = c := by simpa using List.find?_some hf
      subst hpc
      fin_cases hmem <;> decide

lemma jsIsWS_comp : jsIsWS ∘ jsCharLower = jsIsWS := funext jsIsWS_jsCharLower

lemma ltrim_ltrim (l : List Char) : ltrim (ltrim l) = ltrim l :=
  List.dropWhile_idempotent jsIsWS l

lemma rtrim_rtrim (l : List Char) : rtrim (rtrim l) = rtrim l := by
  unfold rtrim
  rw [List.reverse_reverse, List.dropWhile_idempotent]

lemma ltrim_head_not_ws (a : Char) (t : List Char) (h : ltrim (a :: t) = a :: t) :
    jsIsWS a = false := by
  by_contra hws
  simp only [Bool.not_eq_false] at hws
  have h2 : ltrim (a :: t) = ltrim t := by
    simp [ltrim, List.dropWhile_cons, hws]
  rw [h2] at h
  have hle : (ltrim t).length ≤ t.length := (List.dropWhile_suffix jsIsWS).length_le
  rw [h] at hle
  simp at hle

lemma rtrim_isPrefix (l : List Char) : rtrim l <+: l := by
  have h : (l.reverse.dropWhile jsIsWS) <:+ l.reverse := List.dropWhile_suffix jsIsWS
  rw [rtrim, ← List.reverse_suffix]
  simpa using h

lemma ltrim_rtrim_of_fix (l : List Char) (h : ltrim l = l) :
    ltrim (rtrim l) = rtrim l := by
  cases hr : rtrim l with
  | nil => rfl
  | cons a t =>
      have hpre : rtrim l <+: l := rtrim_isPrefix l
      rw [hr] at hpre
      obtain ⟨r, hrr⟩ := hpre
      have hl : l = a :: (t ++ r) := by rw [← hrr]; rfl
      have hws : jsIsWS a = false := by
        apply ltrim_head_not_ws a (t ++ r)
        rw [← hl]
        exact h
      simp [ltrim, List.dropWhile_cons, hws]

lemma jsTrimList_idem (l : List Char) : jsTrimList (jsTrimList l) = jsTrimList l := by
  unfold jsTrimList
  rw [ltrim_rtrim_of_fix (ltrim l) (ltrim_ltrim l), rtrim_rtrim]

lemma jsTrim_idem (s : String) : jsTrim (jsTrim s) = jsTrim s := by
  simp [jsTrim, jsTrimList_idem]

lemma ltrim_map_lower (l : List Char) :
    ltrim (l.map jsCharLower) = (ltrim l).map jsCharLower := by
  unfold ltrim
  rw [List.dropWhile_map, jsIsWS_comp]

lemma rtrim_map_lower (l : List Char) :
    rtrim (l.map jsCharLower) = (rtrim l).map jsCharLower := by
  unfold rtrim
  rw [← List.map_reverse, List.dropWhile_map, jsIsWS_comp, ← List.map_reverse]

lemma jsTrimList_map_lower (l : List Char) :
    jsTrimList (l.map jsCharLower) = (jsTrimList l).map jsCharLower := by
  unfold jsTrimList
  rw [ltrim_map_lower, rtrim_map_lower]

lemma jsTrim_jsToLower (s : String) : jsTrim (jsToLower s) = jsToLower (jsTrim s) := by
  simp [jsTrim, jsToLower, jsTrimList_map_lower]

lemma jsTrim_lower_trim (s : String) :
    jsTrim (jsToLower (jsTrim s)) = jsToLower (jsTrim s) := by
  rw [jsTrim_jsToLower, jsTrim_idem]

lemma isTemperatureData_jsTrim (c : String) :
    isTemperatureData (jsTrim c) = true ↔ jsToLower (jsTrim c) = "temperature, water" := by
  unfold isTemperatureData
  rw [jsTrim_lower_trim]
  exact decide_eq_true_iff

lemma parseFloat_emptyStr : parseFloat "" = .nan := rfl

/-! ### Fusing the code's map/filter chain

`specRowValue` below is transcribed from the specification/claim wording, not
from the code: a row contributes to the key `k` exactly when its trimmed,
case-folded characteristic equals `"temperature, water"`, its trimmed value
string parses (JS `parseFloat`) to a non-NaN number, and its trimmed location
id equals `k`.  The lemmas prove it coincides, for every key actually
present in the output, with what the code's `map/filter` chain retains. -/

lemma temperatureRows_eq_filterMap (rows : List RawRow) :
    temperatureRows rows = rows.filterMap codeSelect := by
  induction rows with
  | nil => rfl
  | cons r rs ih =>
      simp only [temperatureRows, List.map_cons, List.filter_cons, List.filterMap_cons] at *
      by_cases hk : keepRow (trimRow r)
      · simp only [hk, if_true, List.map_cons, List.filter_cons]
        by_cases hn : (parseFloat ((trimRow r).valueStr.getD "")).isNaN
        · simp [codeSelect, hk, hn, ih]
        · simp [codeSelect, hk, hn, ih]
      · simp [codeSelect, hk, ih]

lemma codeSelect_some {r : RawRow} {p : String × JSNum} (h : codeSelect r = some p) :
    jsTrim p.1 = p.1 ∧ p.1 ≠ "" ∧ p.2.isNaN = false := by
  rcases r with ⟨ml, mc, mv⟩
  cases ml with
  | none => simp [codeSelect, keepRow, trimRow, truthy] at h
  | some loc =>
      cases mc with
      | none => simp [codeSelect, keepRow, trimRow, truthy] at h
      | some c =>
          cases mv with
          | none => simp [codeSelect, keepRow, trimRow, truthy] at h
          | some v =>
              simp only [codeSelect, keepRow, trimRow, truthy, Option.map_some',
                Option.getD_some, Option.any_some] at h
              split at h
              case isTrue hc =>
                  injection h with h
                  subst h
                  have hloc : jsTrim loc ≠ "" := by
                    have h2 := hc
                    simp only [Option.map_some', Option.getD_some, Option.any_some,
                      Bool.and_eq_true, decide_eq_true_iff] at h2
                    tauto
                  have hnan : (parseFloat (jsTrim v)).isNaN = false := by
                    have h2 := hc
                    simp only [Option.map_some', Option.getD_some, Option.any_some,
                      Bool.and_eq_true, Bool.not_eq_true'] at h2
                    tauto
                  exact ⟨jsTrim_idem loc, hloc, hnan⟩
              case isFalse => exact absurd h (by simp)

lemma codeSelect_bind_key (r : RawRow) (k : String) (hk : k ≠ "") :
    (codeSelect r).bind (fun p => if p.1 = k then some p.2 else none) =
      specRowValue r k := by
  rcases r with ⟨ml, mc, mv⟩
  cases ml with
  | none =>
      simp [codeSelect, keepRow, trimRow, truthy, specRowValue]
  | some loc =>
      cases mc with
      | none => simp [codeSelect, keepRow, trimRow, truthy, specRowValue]
      | some c =>
          cases mv with
          | none => simp [codeSelect, keepRow, trimRow, truthy, specRowValue]
          | some v =>
              simp only [codeSelect, keepRow, trimRow, truthy, specRowValue,
                Option.map_some', Option.getD_some, Option.any_some]
              by_cases htmp : jsToLower (jsTrim c) = "temperature, water"
              · have htd : isTemperatureData (jsTrim c) = true :=
                  (isTemperatureData_jsTrim c).mpr htmp
                have hcne : jsTrim c ≠ "" := by
                  intro h0
                  rw [h0] at htmp
                  exact absurd htmp (by decide)
                by_cases hnan : (parseFloat (jsTrim v)).isNaN
                · simp [htd, hcne, htmp, hnan]
                · have hvne : jsTrim v ≠ "" := by
                    intro h0
                    rw [h0] at hnan
                    exact hnan (by rw [parseFloat_emptyStr]; rfl)
                  have hk' : ("" : String) ≠ k := fun h0 => hk h0.symm
                  by_cases hlk : jsTrim loc = k
                  · have hlne : jsTrim loc ≠ "" := by rw [hlk]; exact hk
                    simp [htd, hcne, htmp, hnan, hvne, hlne, hlk, hk]
                  · by_cases hlne : jsTrim loc = ""
                    · simp [hlne, htmp, hnan, hlk, hk']
                    · simp [htd, hcne, htmp, hnan, hvne, hlne, hlk]
              · have htd : isTemperatureData (jsTrim c) = false := by
                  rw [← Bool.not_eq_true]
                  intro habs
                  exact htmp ((isTemperatureData_jsTrim c).mp habs)
                simp [htd, htmp]

lemma valuesFor_temperatureRows (rows : List RawRow) (k : String) (hk : k ≠ "") :
    valuesFor (temperatureRows rows) k = specValues rows k := by
  rw [temperatureRows_eq_filterMap, valuesFor, List.filterMap_filterMap, specValues]
  exact List.filterMap_congr fun r _ => codeSelect_bind_key r k hk

/-! ### Grouping and lookup -/

lemma lookupKey_map_keys (xs : List String) (g : String → JSNum) (k : String)
    (v : JSNum) (h : lookupKey (xs.map fun x => (x, g x)) k = some v) :
    k ∈ xs ∧ v = g k := by
  induction xs with
  | nil => simp [lookupKey] at h
  | cons x t ih =>
      simp only [List.map_cons, lookupKey] at h
      by_cases hx : x = k
      · rw [if_pos hx] at h
        obtain ⟨hv⟩ := h
        subst hx
        exact ⟨List.mem_cons_self x t, rfl⟩
      · rw [if_neg hx] at h
        obtain ⟨hmem, hv⟩ := ih h
        exact ⟨List.mem_cons_of_mem x hmem, hv⟩

lemma mem_foldl_addKey (l : List String) (acc : List String) (x : String) :
    x ∈ l.foldl addKey acc ↔ x ∈ acc ∨ x ∈ l := by
  induction l generalizing acc with
  | nil => simp
  | cons a t ih =>
      simp only [List.foldl_cons, ih, List.mem_cons]
      unfold addKey
      by_cases ha : a ∈ acc
      · rw [if_pos ha]
        constructor
        · rintro (h | h)
          · exact Or.inl h
          · exact Or.inr (Or.inr h)
        · rintro (h | h | h)
          · exact Or.inl h
          · exact Or.inl (h ▸ ha)
          · exact Or.inr h
      · rw [if_neg ha]
        simp only [List.mem_append, List.mem_singleton]
        tauto

lemma mem_keysOf (trs : List (String × JSNum)) (k : String) :
    k ∈ keysOf trs ↔ k ∈ trs.map Prod.fst := by
  unfold keysOf
  rw [mem_foldl_addKey]
  simp

lemma valuesFor_ne_nil (trs : List (String × JSNum)) (k : String)
    (h : k ∈ trs.map Prod.fst) : valuesFor trs k ≠ [] := by
  induction trs with
  | nil => simp at h
  | cons p t ih =>
      simp only [List.map_cons, List.mem_cons] at h
      unfold valuesFor
      rw [List.filterMap_cons]
      by_cases hp : p.1 = k
      · simp [hp]
      · rcases h with h | h
        · exact absurd h.symm hp
        · simpa [hp, valuesFor] using ih h

lemma processRows_ok {rows : List RawRow} {m : List (String × JSNum)}
    (h : processRows rows = .ok m) :
    temperatureRows rows ≠ [] ∧ m = aggregate (temperatureRows rows) := by
  cases rows with
  | nil => simp [processRows] at h
  | cons first rest =>
      simp only [processRows] at h
      by_cases h1 : 0 < (missingColumnsOf first).length
      · rw [if_pos h1] at h
        exact absurd h (by simp)
      · rw [if_neg h1] at h
        by_cases h2 : (temperatureRows (first :: rest)).length = 0
        · rw [if_pos h2] at h
          exact absurd h (by simp)
        · rw [if_neg h2] at h
          injection h with hm
          exact ⟨fun hnil => h2 (by rw [hnil]; rfl), hm.symm⟩

lemma key_of_mem_keys {rows : List RawRow} {k : String}
    (h : k ∈ keysOf (temperatureRows rows)) : jsTrim k = k ∧ k ≠ "" := by
  rw [mem_keysOf, List.mem_map] at h
  obtain ⟨p, hp, hk⟩ := h
  rw [temperatureRows_eq_filterMap, List.mem_filterMap] at hp
  obtain ⟨r, _, hr⟩ := hp
  obtain ⟨h1, h2, _⟩ := codeSelect_some hr
  exact ⟨hk ▸ h1, hk ▸ h2⟩

/-- The central correctness lemma: every key/value pair readable from a
successful output is the rounded average of the spec-selected values. -/
lemma processRows_lookup {rows : List RawRow} {m : List (String × JSNum)}
    {k : String} {v : JSNum} (h : processRows rows = .ok m)
    (hl : lookupKey m k = some v) :
    specValues rows k ≠ [] ∧ v = roundTo2 (jsAvg (specValues rows k)) := by
  obtain ⟨-, hm⟩ := processRows_ok h
  subst hm
  unfold aggregate at hl
  obtain ⟨hmem, hv⟩ := lookupKey_map_keys _ _ _ _ hl
  obtain ⟨-, hk⟩ := key_of_mem_keys hmem
  have hvals : valuesFor (temperatureRows rows) k = specValues rows k :=
    valuesFor_temperatureRows rows k hk
  rw [mem_keysOf] at hmem
  refine ⟨?_, by rw [hv, hvals]⟩
  rw [← hvals]
  exact valuesFor_ne_nil _ _ hmem

lemma processRows_ok_cons {first : RawRow} {rest : List RawRow}
    {m : List (String × JSNum)} (h : processRows (first :: rest) = .ok m) :
    ¬0 < (missingColumnsOf first).length := by
  intro h1
  simp only [processRows] at h
  rw [if_pos h1] at h
  exact absurd h (by simp)

lemma aggregate_ne_nil {trs : List (String × JSNum)} (h : trs ≠ []) :
    aggregate trs ≠ [] := by
  cases trs with
  | nil => exact absurd rfl h
  | cons p t =>
      have hmem : p.1 ∈ keysOf (p :: t) := (mem_keysOf _ _).mpr (by simp)
      intro habs
      unfold aggregate at habs
      rw [List.map_eq_nil_iff] at habs
      rw [habs] at hmem
      simp at hmem

lemma map_fst_aggregate (trs : List (String × JSNum)) :
    (aggregate trs).map Prod.fst = keysOf trs := by
  unfold aggregate
  rw [List.map_map,
    show (Prod.fst ∘ fun k => (k, roundTo2 (jsAvg (valuesFor trs k)))) = id from rfl,
    List.map_id]

lemma filterMap_insertAt (n : ℕ) (b : RawRow) (l : List RawRow)
    (hb : codeSelect b = none) :
    (insertAt n b l).filterMap codeSelect = l.filterMap codeSelect := by
  induction n generalizing l with
  | zero => simp [insertAt, List.filterMap_cons, hb]
  | succ n ih =>
      cases l with
      | nil => simp [insertAt, List.filterMap_cons, hb]
      | cons a t => simp [insertAt, List.filterMap_cons, ih t]

lemma temperatureRows_insertAt (n : ℕ) (b : RawRow) (rows : List RawRow)
    (hb : codeSelect b = none) :
    temperatureRows (insertAt n b rows) = temperatureRows rows := by
  rw [temperatureRows_eq_filterMap, temperatureRows_eq_filterMap]
  exact filterMap_insertAt n b rows hb

/-! ## The claims -/

/-- **C6**: the defensive post-aggregation empty-result check is unreachable:
whenever at least one row survives the filter, the aggregated result has at
least one entry, so the `POST` handler's final zero-entries check never fires —
running it changes nothing on any input. -/
theorem C6_empty_result_check_unreachable (rows : List RawRow) :
    (temperatureRows rows ≠ [] → aggregate (temperatureRows rows) ≠ []) ∧
      POSTprocess rows = processRows rows := by
  constructor
  · exact fun h => aggregate_ne_nil h
  · cases h : processRows rows with
    | error e => simp [POSTprocess, h]
    | ok m =>
        obtain ⟨hne, hm⟩ := processRows_ok h
        have hmne : m ≠ [] := by rw [hm]; exact aggregate_ne_nil hne
        simp [POSTprocess, h, List.length_eq_zero, hmne]

/-- Witness for C6 at a concrete input: a surviving row yields a non-empty
aggregate. -/
theorem C6_witness :
    aggregate (temperatureRows
        [⟨some "LOC001", some "Temperature, water", some "20"⟩]) ≠ [] :=
  (C6_empty_result_check_unreachable
      [⟨some "LOC001", some "Temperature, water", some "20"⟩]).1
    (by with_unfolding_all decide)

/-- **C8**: for a file passing the `.csv` extension check, the size check
rejects with `FileTooLarge` exactly when the byte size strictly exceeds
`10 * 1024 * 1024`; a file of exactly 10 MiB passes the size check. -/
theorem C8_size_check_strict (f : FileMeta) (content : String)
    (hcsv : jsEndsWith (jsToLower f.name) ".csv" = true) :
    validateFileBasics f content = some .fileTooLarge ↔
      10 * 1024 * 1024 < f.size := by
  unfold validateFileBasics
  rw [hcsv]
  simp only [Bool.not_true, Bool.false_eq_true, if_false]
  by_cases hs : MAX_FILE_SIZE < f.size
  · rw [if_pos hs]
    simpa [MAX_FILE_SIZE] using hs
  · rw [if_neg hs]
    have : ¬10 * 1024 * 1024 < f.size := by simpa [MAX_FILE_SIZE] using hs
    split
    · simp [this]
    · simp [this]

/-- Witness for C8: a 10 MiB `.csv` file passes the size check (and is in fact
fully valid), while one extra byte is rejected as too large. -/
theorem C8_witness :
    validateFileBasics ⟨"data.csv", 10485760⟩ "x" ≠ some .fileTooLarge ∧
      validateFileBasics ⟨"data.csv", 10485761⟩ "x" = some .fileTooLarge := by
  constructor
  · intro habs
    have h :=
      (C8_size_check_strict ⟨"data.csv", 10485760⟩ "x" (by with_unfolding_all rfl)).mp habs
    exact absurd h (by decide)
  · exact
      (C8_size_check_strict ⟨"data.csv", 10485761⟩ "x" (by with_unfolding_all rfl)).mpr
        (by decide)

/-- **C9**: `validateFileBasics` reports failures with a fixed precedence:
a bad extension is reported first (regardless of size and content), and an
oversized `.csv` file is reported as too large (regardless of content). -/
theorem C9_validation_precedence (f : FileMeta) (content : String) :
    (jsEndsWith (jsToLower f.name) ".csv" = false →
        validateFileBasics f content = some .invalidFileType) ∧
      (jsEndsWith (jsToLower f.name) ".csv" = true → MAX_FILE_SIZE < f.size →
        validateFileBasics f content = some .fileTooLarge) := by
  constructor
  · intro h
    unfold validateFileBasics
    rw [h]
    rfl
  · intro h hs
    unfold validateFileBasics
    rw [h]
    simp only [Bool.not_true, Bool.false_eq_true, if_false]
    rw [if_pos hs]

/-- Witness for C9: an oversized file that is not named `*.csv` is reported
as `InvalidFileType`, not `FileTooLarge`; an oversized `.csv` file with blank
content is reported as `FileTooLarge`, not `EmptyFile`. -/
theorem C9_witness :
    validateFileBasics ⟨"data.txt", 20971520⟩ "x" = some .invalidFileType ∧
      validateFileBasics ⟨"data.csv", 20971520⟩ "   " = some .fileTooLarge :=
  ⟨(C9_validation_precedence ⟨"data.txt", 20971520⟩ "x").1 (by with_unfolding_all rfl),
   (C9_validation_precedence ⟨"data.csv", 20971520⟩ "   ").2 (by with_unfolding_all rfl)
     (by decide)⟩

/-- **C10**: output keys are the trimmed location ids: no key of a successful
output has leading or trailing whitespace, and two rows whose location ids
differ only by surrounding whitespace are grouped and averaged together under
the single trimmed key. -/
theorem C10_keys_are_trimmed :
    (∀ (rows : List RawRow) (m : List (String × JSNum)),
        processRows rows = .ok m → ∀ k ∈ m.map Prod.fst, jsTrim k = k) ∧
      processRows [⟨some " LOC001 ", some "Temperature, water", some "20"⟩,
          ⟨some "LOC001", some "Temperature, water", some "22"⟩] =
        .ok [("LOC001", JSNum.fin 21)] := by
  constructor
  · intro rows m h k hk
    obtain ⟨-, hm⟩ := processRows_ok h
    rw [hm, map_fst_aggregate] at hk
    exact (key_of_mem_keys hk).1
  · with_unfolding_all rfl

/-- Witness for C10: the general part applied to a concrete successful run. -/
theorem C10_witness : jsTrim "LOC001" = "LOC001" :=
  C10_keys_are_trimmed.1
    [⟨some " LOC001 ", some "Temperature, water", some "20"⟩,
     ⟨some "LOC001", some "Temperature, water", some "22"⟩]
    [("LOC001", JSNum.fin 21)] C10_keys_are_trimmed.2 "LOC001" (by simp)

/-- **C3 (amended)**: after parsing yields a non-empty row sequence,
processing fails with `MissingColumnsError` — whose payload enumerates
exactly the required columns whose value in the first record is falsy —
if and only if at least one of the three required columns is absent from the
first record **or present with an empty-string value**.  (The original claim,
that the check only looks at the first record's *keys*, is refuted by
`C3_counterexample`.) -/
theorem C3_missing_columns_check (first : RawRow) (rest : List RawRow) :
    processRows (first :: rest) =
        .error (.missingColumns (missingColumnsOf first)) ↔
      missingColumnsOf first ≠ [] := by
  constructor
  · intro h
    by_cases h1 : 0 < (missingColumnsOf first).length
    · exact List.length_pos.mp h1
    · exfalso
      simp only [processRows] at h
      rw [if_neg h1] at h
      by_cases h2 : (temperatureRows (first :: rest)).length = 0
      · rw [if_pos h2] at h
        injection h with h
        exact PipelineError.noConfusion h
      · rw [if_neg h2] at h
        exact Except.noConfusion h
  · intro h
    have h1 : 0 < (missingColumnsOf first).length := List.length_pos.mpr h
    simp only [processRows]
    rw [if_pos h1]

/-- Witness for C3: a first record with an absent `resultvalue` key triggers
the error, with that single column enumerated. -/
theorem C3_witness :
    processRows [⟨some "LOC001", some "Temperature, water", none⟩] =
      .error (.missingColumns ["resultvalue"]) := by
  have h :=
    (C3_missing_columns_check ⟨some "LOC001", some "Temperature, water", none⟩ []).mpr
      (by with_unfolding_all decide)
  rw [show missingColumnsOf ⟨some "LOC001", some "Temperature, water", none⟩ =
      ["resultvalue"] from by with_unfolding_all rfl] at h
  exact h

/-- Counterexample to C3 as stated: a first record in which **all three keys
are present** (each field is `some _`) is still rejected with
`MissingColumnsError` because its `resultvalue` is the empty string, while the
claim says the check passes whenever all three keys are present. -/
theorem C3_counterexample :
    (RawRow.mk (some "LOC001") (some "Temperature, water") (some "")).monitoringlocationid.isSome = true ∧
      (RawRow.mk (some "LOC001") (some "Temperature, water") (some "")).characteristicname.isSome = true ∧
      (RawRow.mk (some "LOC001") (some "Temperature, water") (some "")).resultvalue.isSome = true ∧
      processRows [⟨some "LOC001", some "Temperature, water", some ""⟩] =
        .error (.missingColumns ["resultvalue"]) :=
  ⟨rfl, rfl, rfl, by with_unfolding_all rfl⟩

/-- **C4 (amended)**: every observation handed to the aggregator has a
non-NaN value — the final filter eliminates exactly the NaN parses.  (The
original claim additionally asserted the value is never an infinity; that is
refuted by `C4_counterexample`, since `parseFloat("Infinity")` is `Infinity`
and the code's filter only checks `isNaN`.) -/
theorem C4_retained_values_not_nan (rows : List RawRow) (p : String × JSNum)
    (hp : p ∈ temperatureRows rows) : p.2.isNaN = false := by
  unfold temperatureRows at hp
  rw [List.mem_filter] at hp
  simpa using hp.2

/-- Witness for C4: the amended claim applied to a concrete retained row. -/
theorem C4_witness : (("LOC001", JSNum.fin 20) : String × JSNum).2.isNaN = false :=
  C4_retained_values_not_nan
    [⟨some "LOC001", some "Temperature, water", some "20"⟩]
    ("LOC001", JSNum.fin 20) (by with_unfolding_all decide)

/-- Counterexample to C4 as stated: a row whose value string is `"Infinity"`
is retained by the filter with the value positive infinity (parsed by
`parseFloat`, not rejected by the `isNaN` check), and processing succeeds with
an infinite output entry — the claim says a retained value is never
Infinity. -/
theorem C4_counterexample :
    temperatureRows [⟨some "LOC001", some "Temperature, water", some "Infinity"⟩] =
        [("LOC001", JSNum.posInf)] ∧
      processRows [⟨some "LOC001", some "Temperature, water", some "Infinity"⟩] =
        .ok [("LOC001", JSNum.posInf)] :=
  ⟨by with_unfolding_all rfl, by with_unfolding_all rfl⟩

/-- **C5 (amended)**: invalid rows are skipped without failing the request
and without changing the output, *provided the row does not become the first
record while carrying a falsy required field*: inserting a row that
contributes nothing (bad characteristic, non-numeric value, or missing/empty
sub-field) at any position `n ≥ 1` — or at position 0 when all its required
fields are non-empty — leaves a successful result unchanged.  (The original
unconditional claim is refuted by `C5_counterexample`: a skippable row with an
empty sub-field placed first trips the column check.) -/
theorem C5_invalid_rows_skipped (rows : List RawRow) (m : List (String × JSNum))
    (b : RawRow) (n : ℕ) (h : processRows rows = .ok m)
    (hb : codeSelect b = none) (h0 : n = 0 → missingColumnsOf b = []) :
    processRows (insertAt n b rows) = .ok m := by
  cases rows with
  | nil => simp [processRows] at h
  | cons first rest =>
      have hmiss : ¬0 < (missingColumnsOf first).length := processRows_ok_cons h
      obtain ⟨hne, hm⟩ := processRows_ok h
      cases n with
      | zero =>
          have hb0 : missingColumnsOf b = [] := h0 rfl
          have htr : temperatureRows (insertAt 0 b (first :: rest)) =
              temperatureRows (first :: rest) :=
            temperatureRows_insertAt 0 b (first :: rest) hb
          show processRows (b :: first :: rest) = .ok m
          simp only [processRows]
          rw [if_neg (by simp [hb0])]
          rw [show temperatureRows (b :: first :: rest) =
              temperatureRows (first :: rest) from htr]
          rw [if_neg (by simpa [List.length_eq_zero] using hne), hm]
      | succ n =>
          have htr : temperatureRows (first :: insertAt n b rest) =
              temperatureRows (first :: rest) := by
            have := temperatureRows_insertAt (n + 1) b (first :: rest) hb
            simpa [insertAt] using this
          show processRows (first :: insertAt n b rest) = .ok m
          simp only [processRows]
          rw [if_neg hmiss, htr]
          rw [if_neg (by simpa [List.length_eq_zero] using hne), hm]

/-- Witness for C5: appending a non-matching `pH` row after a valid
temperature row leaves the successful output unchanged. -/
theorem C5_witness :
    processRows (insertAt 1 ⟨some "LOC002", some "pH", some "7.5"⟩
        [⟨some "LOC001", some "Temperature, water", some "20"⟩]) =
      .ok [("LOC001", JSNum.fin 20)] :=
  C5_invalid_rows_skipped
    [⟨some "LOC001", some "Temperature, water", some "20"⟩]
    [("LOC001", JSNum.fin 20)] ⟨some "LOC002", some "pH", some "7.5"⟩ 1
    (by with_unfolding_all rfl) (by with_unfolding_all rfl)
    (fun h => absurd h (by decide))

/-- Counterexample to C5 as stated: the input `[good]` processes successfully,
the row `(LOC002, pH, "")` is an invalid row (it contributes nothing), yet
adding it at the front makes the whole request fail with a file-level
`MissingColumnsError` — the claim says adding such a row never causes
processing to fail. -/
theorem C5_counterexample :
    processRows [⟨some "LOC001", some "Temperature, water", some "20"⟩] =
        .ok [("LOC001", JSNum.fin 20)] ∧
      codeSelect ⟨some "LOC002", some "pH", some ""⟩ = none ∧
      processRows [⟨some "LOC002", some "pH", some ""⟩,
          ⟨some "LOC001", some "Temperature, water", some "20"⟩] =
        .error (.missingColumns ["resultvalue"]) :=
  ⟨by with_unfolding_all rfl, by with_unfolding_all rfl, by with_unfolding_all rfl⟩

/-- **C1**: for every successfully processed input, every key readable from
the output maps to the two-decimal rounding of the arithmetic mean of exactly
the spec-selected rows for that key — those whose trimmed, case-folded
characteristic equals `"temperature, water"`, whose trimmed value string
parses to a non-NaN number, and whose trimmed location id equals the key
(`specValues` is transcribed from this wording); rows with any other
characteristic (`"pH"`, `"Dissolved Oxygen"`, …) are in no key's value list
and so contribute to no output entry. -/
theorem C1_grouping_exact (rows : List RawRow) (m : List (String × JSNum))
    (k : String) (v : JSNum) (h : processRows rows = .ok m)
    (hl : lookupKey m k = some v) :
    specValues rows k ≠ [] ∧ v = roundTo2 (jsAvg (specValues rows k)) :=
  processRows_lookup h hl

/-- Witness for C1 at a concrete input mixing a temperature row with a `pH`
row: the output value for `LOC001` is the rounded mean of the single
spec-selected value `20.5`. -/
theorem C1_witness :
    specValues [⟨some "LOC001", some "Temperature, water", some "20.5"⟩,
        ⟨some "LOC001", some "pH", some "7.5"⟩] "LOC001" ≠ [] ∧
      JSNum.fin (41 / 2) =
        roundTo2 (jsAvg (specValues
          [⟨some "LOC001", some "Temperature, water", some "20.5"⟩,
           ⟨some "LOC001", some "pH", some "7.5"⟩] "LOC001")) :=
  C1_grouping_exact
    [⟨some "LOC001", some "Temperature, water", some "20.5"⟩,
     ⟨some "LOC001", some "pH", some "7.5"⟩]
    [("LOC001", JSNum.fin (41 / 2))] "LOC001" (JSNum.fin (41 / 2))
    (by with_unfolding_all rfl) (by with_unfolding_all rfl)

/-- **C2 (amended)**: the per-location output is rounded exactly once, after
averaging, by `round(avg * 10^2) / 10^2` — but `round` is JS `Math.round`,
which rounds halves **toward positive infinity** (`⌊x + 1/2⌋`), not away from
zero; the two agree except when `avg * 100` is negative and exactly half way
between two integers, as `C2_counterexample` shows. -/
theorem C2_round_once_half_up (rows : List RawRow) (m : List (String × JSNum))
    (k : String) (v : JSNum) (q : ℚ) (h : processRows rows = .ok m)
    (hl : lookupKey m k = some v) (havg : jsAvg (specValues rows k) = .fin q) :
    v = .fin (roundHalfUpTwo q) := by
  obtain ⟨-, hv⟩ := processRows_lookup h hl
  rw [hv, havg]
  simp [roundTo2, jsMul, jsMathRound, jsDiv, roundHalfUpTwo]

/-- Witness for C2 at a concrete positive input. -/
theorem C2_witness :
    JSNum.fin (41 / 2) = JSNum.fin (roundHalfUpTwo (41 / 2)) :=
  C2_round_once_half_up
    [⟨some "LOC001", some "Temperature, water", some "20.5"⟩]
    [("LOC001", JSNum.fin (41 / 2))] "LOC001" (JSNum.fin (41 / 2)) (41 / 2)
    (by with_unfolding_all rfl) (by with_unfolding_all rfl)
    (by with_unfolding_all rfl)

/-- Counterexample to C2 as stated: for the single value `-0.125` the average
is `-1/8` and `avg * 100 = -12.5`; the code (JS `Math.round`) produces
`-0.12`, while round-half-away-from-zero as claimed would produce `-0.13`. -/
theorem C2_counterexample :
    processRows [⟨some "LOC001", some "Temperature, water", some "-0.125"⟩] =
        .ok [("LOC001", JSNum.fin (-(3 : ℚ) / 25))] ∧
      jsAvg (specValues [⟨some "LOC001", some "Temperature, water", some "-0.125"⟩]
          "LOC001") = .fin (-(1 : ℚ) / 8) ∧
      roundHalfAwayTwo (-(1 : ℚ) / 8) = -(13 : ℚ) / 100 ∧
      (-(3 : ℚ) / 25) ≠ -(13 : ℚ) / 100 :=
  ⟨by with_unfolding_all rfl, by with_unfolding_all rfl,
   by with_unfolding_all decide, by with_unfolding_all decide⟩

/-! ### parseFloat on a numeric prefix followed by trailing garbage -/

lemma digit_not_ws {d : Char} (h : d.isDigit = true) : jsIsWS d = false := by
  by_contra habs
  simp only [Bool.not_eq_false, jsIsWS, Bool.or_eq_true, decide_eq_true_iff] at habs
  rcases habs with ((((h1 | h1) | h1) | h1) | h1) | h1 <;>
    (subst h1; exact absurd h (by decide))

lemma digit_ne {d : Char} (x : Char) (h : d.isDigit = true)
    (hx : x.isDigit = false) : d ≠ x := by
  intro habs
  rw [habs, hx] at h
  exact Bool.false_ne_true h

lemma takeWhile_append_all {p : Char → Bool} {l₁ l₂ : List Char}
    (h : ∀ a ∈ l₁, p a = true) :
    (l₁ ++ l₂).takeWhile p = l₁ ++ l₂.takeWhile p := by
  induction l₁ with
  | nil => simp
  | cons a t ih =>
      have ha := h a (List.mem_cons_self a t)
      have ih' := ih fun x hx => h x (List.mem_cons_of_mem a hx)
      simp [List.takeWhile_cons, ha, ih']

lemma dropWhile_append_all {p : Char → Bool} {l₁ l₂ : List Char}
    (h : ∀ a ∈ l₁, p a = true) :
    (l₁ ++ l₂).dropWhile p = l₂.dropWhile p := by
  induction l₁ with
  | nil => simp
  | cons a t ih =>
      have ha := h a (List.mem_cons_self a t)
      have ih' := ih fun x hx => h x (List.mem_cons_of_mem a hx)
      simp [List.dropWhile_cons, ha, ih']

lemma parseFloat_digit_head {v : String} {d : Char} {tail : List Char}
    (hv : v.data = d :: tail) (hd : d.isDigit = true) :
    parseFloat v = (match parseUnsignedJS (d :: tail) with
      | .val q => .fin q
      | .inf => .posInf
      | .nan => .nan) := by
  have hdw : v.data.dropWhile jsIsWS = d :: tail := by
    rw [hv, List.dropWhile_cons, digit_not_ws hd]
    simp
  have h1 : d ≠ '+' := digit_ne '+' hd (by decide)
  have h2 : d ≠ '-' := digit_ne '-' hd (by decide)
  unfold parseFloat
  rw [hdw]
  split
  next r heq =>
      injection heq with hh
      exact absurd hh h1
  next r heq =>
      injection heq with hh
      exact absurd hh h2
  next => rfl

lemma parseExp_not_e {g : Char} {rest : List Char} (h2 : g ≠ 'e')
    (h3 : g ≠ 'E') : parseExp (g :: rest) = 0 := by
  unfold parseExp
  split
  next r heq =>
      injection heq with hh
      exact absurd hh h2
  next r heq =>
      injection heq with hh
      exact absurd hh h3
  next => rfl

lemma parseMantissa_prefix (ds fs rest : List Char) (g : Char)
    (hds : ds ≠ []) (hds2 : ∀ d ∈ ds, d.isDigit = true)
    (hfs : ∀ d ∈ fs, d.isDigit = true) (hg1 : g.isDigit = false) :
    parseMantissa (ds ++ '.' :: (fs ++ g :: rest)) =
      some ((digitsToNat ds : ℚ) +
        (digitsToNat fs : ℚ) / (10 : ℚ) ^ fs.length, g :: rest) := by
  have hdot : Char.isDigit '.' = false := by decide
  have hip : (ds ++ '.' :: (fs ++ g :: rest)).takeWhile Char.isDigit = ds := by
    rw [takeWhile_append_all hds2]
    simp [List.takeWhile_cons, hdot]
  have hdp : (ds ++ '.' :: (fs ++ g :: rest)).dropWhile Char.isDigit =
      '.' :: (fs ++ g :: rest) := by
    rw [dropWhile_append_all hds2]
    simp [List.dropWhile_cons, hdot]
  have hfp : (fs ++ g :: rest).takeWhile Char.isDigit = fs := by
    rw [takeWhile_append_all hfs]
    simp [List.takeWhile_cons, hg1]
  have hfd : (fs ++ g :: rest).dropWhile Char.isDigit = g :: rest := by
    rw [dropWhile_append_all hfs]
    simp [List.dropWhile_cons, hg1]
  have hipe : ds.isEmpty = false := by
    cases ds with
    | nil => exact absurd rfl hds
    | cons a t => rfl
  simp [parseMantissa, hip, hdp, hfp, hfd, hipe]

lemma parseUnsignedJS_prefix (ds fs rest : List Char) (g : Char)
    (hds : ds ≠ []) (hds2 : ∀ d ∈ ds, d.isDigit = true)
    (hfs : ∀ d ∈ fs, d.isDigit = true) (hg1 : g.isDigit = false)
    (hg2 : g ≠ 'e') (hg3 : g ≠ 'E') :
    parseUnsignedJS (ds ++ '.' :: (fs ++ g :: rest)) =
      .val ((digitsToNat ds : ℚ) +
        (digitsToNat fs : ℚ) / (10 : ℚ) ^ fs.length) := by
  have hnotinf : ['I', 'n', 'f', 'i', 'n', 'i', 't', 'y'].isPrefixOf
      (ds ++ '.' :: (fs ++ g :: rest)) = false := by
    cases ds with
    | nil => exact absurd rfl hds
    | cons d t =>
        have hdI : d ≠ 'I' :=
          digit_ne 'I' (hds2 d (List.mem_cons_self d t)) (by decide)
        have hbe : ('I' == d) = false :=
          beq_eq_false_iff_ne.mpr fun hh => hdI hh.symm
        simp [List.cons_append, List.isPrefixOf, hbe]
  rw [parseUnsignedJS, hnotinf]
  simp only [Bool.false_eq_true, if_false,
    parseMantissa_prefix ds fs rest g hds hds2 hfs hg1,
    parseExp_not_e hg2 hg3, zpow_zero, mul_one]

lemma parseFloat_prefix {v : String} (ds fs rest : List Char) (g : Char)
    (hv : v.data = ds ++ '.' :: (fs ++ g :: rest))
    (hds : ds ≠ []) (hds2 : ∀ d ∈ ds, d.isDigit = true)
    (hfs : ∀ d ∈ fs, d.isDigit = true) (hg1 : g.isDigit = false)
    (hg2 : g ≠ 'e') (hg3 : g ≠ 'E') :
    parseFloat v = .fin ((digitsToNat ds : ℚ) +
      (digitsToNat fs : ℚ) / (10 : ℚ) ^ fs.length) := by
  cases ds with
  | nil => exact absurd rfl hds
  | cons d t =>
      have hd : d.isDigit = true := hds2 d (List.mem_cons_self d t)
      have hv' : v.data = d :: (t ++ '.' :: (fs ++ g :: rest)) := by
        simpa using hv
      rw [parseFloat_digit_head hv' hd,
        show d :: (t ++ '.' :: (fs ++ g :: rest)) =
          (d :: t) ++ '.' :: (fs ++ g :: rest) from rfl,
        parseUnsignedJS_prefix (d :: t) fs rest g (by simp) hds2 hfs hg1 hg2 hg3]

/-- **C7**: `parseFloat` leading-prefix semantics at the row level: any row
whose trimmed value string is a decimal numeral (digits, a dot, optional
further digits) followed immediately by trailing garbage — a character that is
not a digit and not an exponent marker, then anything — is retained by the
filter and contributes the numeral's value, rather than being rejected. -/
theorem C7_prefix_garbage_retained (loc c v : String) (ds fs rest : List Char)
    (g : Char) (hloc : jsTrim loc ≠ "")
    (hc : jsToLower (jsTrim c) = "temperature, water")
    (hv : (jsTrim v).data = ds ++ '.' :: (fs ++ g :: rest))
    (hds : ds ≠ []) (hds2 : ∀ d ∈ ds, d.isDigit = true)
    (hfs : ∀ d ∈ fs, d.isDigit = true) (hg1 : g.isDigit = false)
    (hg2 : g ≠ 'e') (hg3 : g ≠ 'E') :
    temperatureRows [⟨some loc, some c, some v⟩] =
      [(jsTrim loc, .fin ((digitsToNat ds : ℚ) +
        (digitsToNat fs : ℚ) / (10 : ℚ) ^ fs.length))] := by
  have hpf : parseFloat (jsTrim v) = .fin ((digitsToNat ds : ℚ) +
      (digitsToNat fs : ℚ) / (10 : ℚ) ^ fs.length) :=
    parseFloat_prefix ds fs rest g hv hds hds2 hfs hg1 hg2 hg3
  have hcne : jsTrim c ≠ "" := fun h0 => by
    rw [h0] at hc
    exact absurd hc (by decide)
  have hvne : jsTrim v ≠ "" := by
    intro h0
    have h1 : (jsTrim v).data = [] := by rw [h0]
    rw [hv] at h1
    cases ds with
    | nil => exact hds rfl
    | cons d t => simp at h1
  have htd : isTemperatureData (jsTrim c) = true :=
    (isTemperatureData_jsTrim c).mpr hc
  have hcs : codeSelect ⟨some loc, some c, some v⟩ =
      some (jsTrim loc, .fin ((digitsToNat ds : ℚ) +
        (digitsToNat fs : ℚ) / (10 : ℚ) ^ fs.length)) := by
    simp [codeSelect, trimRow, keepRow, truthy, hloc, hcne, hvne, htd, hpf,
      JSNum.isNaN]
  rw [temperatureRows_eq_filterMap]
  simp [List.filterMap_cons, hcs]

/-- Witness for C7 at the claim's example: `"21.5abc"` is retained and
contributes `21.5`. -/
theorem C7_witness :
    temperatureRows [⟨some "LOC001", some "Temperature, water", some "21.5abc"⟩] =
      [("LOC001", JSNum.fin (43 / 2))] := by
  have h := C7_prefix_garbage_retained "LOC001" "Temperature, water" "21.5abc"
    ['2', '1'] ['5'] ['b', 'c'] 'a'
    (by with_unfolding_all decide) (by with_unfolding_all decide)
    (by with_unfolding_all decide) (by decide) (by decide)
    (by decide) (by decide) (by decide) (by decide)
  rw [h, show digitsToNat ['2', '1'] = 21 from by decide,
    show digitsToNat ['5'] = 5 from by decide,
    show (['5'] : List Char).length = 1 from rfl,
    show jsTrim "LOC001" = "LOC001" from by with_unfolding_all decide]
  norm_num

end WaterQuality
